import Mathlib

/-!
Verification of the 2D Laplace-equation image-inpainting solvers
(`iterative_solver.py`): Jacobi and SOR steppers, the two solver loops,
and the brute-force relaxation-factor search.

Grids are embedded as row-major lists of rationals together with their
dimensions; masks as row-major lists of booleans.  Pixel values are exact
rationals standing for the floating-point values of the source.  The
Euclidean-norm convergence test `‖u_new[mask] - u[mask]‖ < tol` is embedded
by the equivalent decidable test `0 < tol ∧ Σ d² < tol²`; the lemma
`normLtTol_iff_sqrt` proves the equivalence with the real square root.
-/

/-- A 2D array of pixel intensities, row-major. Mirrors a numpy float array
of shape `(rows, cols)`. -/
structure Grid where
  rows : Nat
  cols : Nat
  data : List ℚ
deriving DecidableEq

/-- A 2D boolean mask, row-major. Mirrors a numpy bool array. -/
structure Mask where
  rows : Nat
  cols : Nat
  data : List Bool
deriving DecidableEq

/-- `u[i, j]` (in-range reads; out-of-range indices default to `0`). -/
def Grid.get (g : Grid) (i j : Nat) : ℚ :=
  g.data.getD (i * g.cols + j) 0

/-- `u[i, j] = v`. -/
def Grid.set (g : Grid) (i j : Nat) (v : ℚ) : Grid :=
  ⟨g.rows, g.cols, g.data.set (i * g.cols + j) v⟩

/-- `mask[i, j]` (out-of-range indices default to `False`). -/
def Mask.get (m : Mask) (i j : Nat) : Bool :=
  m.data.getD (i * m.cols + j) false

/-- Build a grid of shape `(rows, cols)` from a pixel function. -/
def Grid.ofFn (rows cols : Nat) (f : Nat → Nat → ℚ) : Grid :=
  ⟨rows, cols, (List.range (rows * cols)).map (fun k => f (k / cols) (k % cols))⟩

/-- Build a mask of shape `(rows, cols)` from a cell predicate. -/
def Mask.ofFn (rows cols : Nat) (f : Nat → Nat → Bool) : Mask :=
  ⟨rows, cols, (List.range (rows * cols)).map (fun k => f (k / cols) (k % cols))⟩

/-- The wrap-around (toroidal) 4-neighbor average used by the Jacobi path:
`(np.roll(u,+1,0) + np.roll(u,-1,0) + np.roll(u,+1,1) + np.roll(u,-1,1)) / 4`
read at cell `(i, j)` with `i < rows`, `j < cols`. -/
def avgNeighbors (u : Grid) (i j : Nat) : ℚ :=
  (u.get ((i + 1) % u.rows) j + u.get ((i + u.rows - 1) % u.rows) j +
   u.get i ((j + 1) % u.cols) + u.get i ((j + u.cols - 1) % u.cols)) / 4

/-- One Jacobi step (`step_jacobi_2D`): masked cells get
`(1-omega)*u + omega*avg_neighbors`, all read from the prior iterate;
unmasked cells are copied unchanged. -/
def step_jacobi_2D (u : Grid) (m : Mask) (omega : ℚ) : Grid :=
  Grid.ofFn u.rows u.cols (fun i j =>
    if m.get i j then (1 - omega) * u.get i j + omega * avgNeighbors u i j
    else u.get i j)

/- ------------------------------------------------------------------ -/
/- Basic indexing lemmas for the row-major representation.            -/
/- ------------------------------------------------------------------ -/

theorem rowMajor_div {i j c : Nat} (hj : j < c) : (i * c + j) / c = i := by
  have hc : 0 < c := by omega
  rw [Nat.mul_comm, Nat.mul_add_div hc, Nat.div_eq_of_lt hj]
  omega

theorem rowMajor_mod {i j c : Nat} (hj : j < c) : (i * c + j) % c = j := by
  rw [Nat.mul_comm, Nat.mul_add_mod, Nat.mod_eq_of_lt hj]

theorem rowMajor_lt {i j r c : Nat} (hi : i < r) (hj : j < c) :
    i * c + j < r * c := by
  calc i * c + j < i * c + c := by omega
    _ = (i + 1) * c := by ring
    _ ≤ r * c := Nat.mul_le_mul_right c hi

theorem rowMajor_inj {i j a b c : Nat} (hj : j < c) (hb : b < c)
    (h : i * c + j = a * c + b) : i = a ∧ j = b := by
  have h1 : (i * c + j) / c = (a * c + b) / c := by rw [h]
  have h2 : (i * c + j) % c = (a * c + b) % c := by rw [h]
  rw [rowMajor_div hj, rowMajor_div hb] at h1
  rw [rowMajor_mod hj, rowMajor_mod hb] at h2
  exact ⟨h1, h2⟩

theorem Grid.ofFn_rows (rows cols : Nat) (f : Nat → Nat → ℚ) :
    (Grid.ofFn rows cols f).rows = rows := rfl

theorem Grid.ofFn_cols (rows cols : Nat) (f : Nat → Nat → ℚ) :
    (Grid.ofFn rows cols f).cols = cols := rfl

theorem Grid.ofFn_length (rows cols : Nat) (f : Nat → Nat → ℚ) :
    (Grid.ofFn rows cols f).data.length = rows * cols := by
  simp [Grid.ofFn]

theorem Grid.ofFn_get (rows cols : Nat) (f : Nat → Nat → ℚ) {i j : Nat}
    (hi : i < rows) (hj : j < cols) :
    (Grid.ofFn rows cols f).get i j = f i j := by
  have hlt : i * cols + j < rows * cols := rowMajor_lt hi hj
  have hlen : i * cols + j <
      ((List.range (rows * cols)).map (fun k => f (k / cols) (k % cols))).length := by
    simpa using hlt
  unfold Grid.get Grid.ofFn
  rw [List.getD_eq_getElem _ _ hlen]
  simp [rowMajor_div hj, rowMajor_mod hj]

theorem Mask.ofFn_get_bool (rows cols : Nat) (f : Nat → Nat → Bool) {i j : Nat}
    (hi : i < rows) (hj : j < cols) :
    (Mask.ofFn rows cols f).get i j = f i j := by
  have hlt : i * cols + j < rows * cols := rowMajor_lt hi hj
  have hlen : i * cols + j <
      ((List.range (rows * cols)).map (fun k => f (k / cols) (k % cols))).length := by
    simpa using hlt
  unfold Mask.get Mask.ofFn
  rw [List.getD_eq_getElem _ _ hlen]
  simp [rowMajor_div hj, rowMajor_mod hj]

theorem Grid.get_set_ne (g : Grid) {i j a b : Nat} (v : ℚ)
    (hj : j < g.cols) (hb : b < g.cols) (hne : ¬(i = a ∧ j = b)) :
    (g.set a b v).get i j = g.get i j := by
  have hidx : i * g.cols + j ≠ a * g.cols + b := by
    intro h
    exact hne (rowMajor_inj hj hb h)
  unfold Grid.get Grid.set
  by_cases hlt : i * g.cols + j < g.data.length
  · have hlt2 : i * g.cols + j < (g.data.set (a * g.cols + b) v).length := by
      simpa using hlt
    rw [List.getD_eq_getElem _ _ hlt, List.getD_eq_getElem _ _ hlt2,
      List.getElem_set_ne (Ne.symm hidx)]
  · have hle : g.data.length ≤ i * g.cols + j := by omega
    have hle2 : (g.data.set (a * g.cols + b) v).length ≤ i * g.cols + j := by
      simpa using hle
    rw [List.getD_eq_default _ _ hle, List.getD_eq_default _ _ hle2]

/- ------------------------------------------------------------------ -/
/- Concrete scenario of the spec (claim C5).                          -/
/- ------------------------------------------------------------------ -/

/-- 10×10 grid of zeros except pixel `(0,0) = 100`. -/
def hotCornerGrid : Grid :=
  Grid.ofFn 10 10 (fun i j => if i = 0 ∧ j = 0 then 100 else 0)

/-- Mask that is true everywhere except the hot corner `(0,0)`. -/
def hotCornerMask : Mask :=
  Mask.ofFn 10 10 (fun i j => decide (¬(i = 0 ∧ j = 0)))

theorem hotCornerGrid_rows : hotCornerGrid.rows = 10 := rfl

theorem hotCornerGrid_cols : hotCornerGrid.cols = 10 := rfl

theorem hotCornerGrid_get {i j : Nat} (hi : i < 10) (hj : j < 10) :
    hotCornerGrid.get i j = if i = 0 ∧ j = 0 then 100 else 0 :=
  Grid.ofFn_get _ _ _ hi hj

theorem hotCornerMask_get {i j : Nat} (hi : i < 10) (hj : j < 10) :
    hotCornerMask.get i j = decide (¬(i = 0 ∧ j = 0)) :=
  Mask.ofFn_get_bool _ _ _ hi hj

theorem step_hot_get {i j : Nat} (hi : i < 10) (hj : j < 10) :
    (step_jacobi_2D hotCornerGrid hotCornerMask 1).get i j =
      if hotCornerMask.get i j then
        (1 - 1) * hotCornerGrid.get i j + 1 * avgNeighbors hotCornerGrid i j
      else hotCornerGrid.get i j :=
  Grid.ofFn_get _ _ _ hi hj

theorem avgNeighbors_hot (i j : Nat) :
    avgNeighbors hotCornerGrid i j =
      (hotCornerGrid.get ((i + 1) % 10) j + hotCornerGrid.get ((i + 9) % 10) j +
       hotCornerGrid.get i ((j + 1) % 10) + hotCornerGrid.get i ((j + 9) % 10)) / 4 := by
  have h1 : i + 10 - 1 = i + 9 := by omega
  have h2 : j + 10 - 1 = j + 9 := by omega
  unfold avgNeighbors
  rw [hotCornerGrid_rows, hotCornerGrid_cols, h1, h2]

/-- Claim C5: for the 10×10 hot-corner scenario with `omega = 1`, one Jacobi
step gives exactly `25` at the four wrap-around neighbors `(1,0)`, `(9,0)`,
`(0,1)`, `(0,9)` of the hot corner, and `0` at every other masked cell. -/
theorem jacobi_hot_corner_step :
    (step_jacobi_2D hotCornerGrid hotCornerMask 1).get 1 0 = 25 ∧
    (step_jacobi_2D hotCornerGrid hotCornerMask 1).get 9 0 = 25 ∧
    (step_jacobi_2D hotCornerGrid hotCornerMask 1).get 0 1 = 25 ∧
    (step_jacobi_2D hotCornerGrid hotCornerMask 1).get 0 9 = 25 ∧
    (∀ i j, i < 10 → j < 10 → hotCornerMask.get i j = true →
      ¬((i = 1 ∧ j = 0) ∨ (i = 9 ∧ j = 0) ∨ (i = 0 ∧ j = 1) ∨ (i = 0 ∧ j = 9)) →
      (step_jacobi_2D hotCornerGrid hotCornerMask 1).get i j = 0) := by
  refine ⟨?_, ?_, ?_, ?_, ?_⟩
  · rw [step_hot_get (by omega) (by omega), avgNeighbors_hot]
    rw [hotCornerMask_get (by omega) (by omega)]
    norm_num [hotCornerGrid_get]
  · rw [step_hot_get (by omega) (by omega), avgNeighbors_hot]
    rw [hotCornerMask_get (by omega) (by omega)]
    norm_num [hotCornerGrid_get]
  · rw [step_hot_get (by omega) (by omega), avgNeighbors_hot]
    rw [hotCornerMask_get (by omega) (by omega)]
    norm_num [hotCornerGrid_get]
  · rw [step_hot_get (by omega) (by omega), avgNeighbors_hot]
    rw [hotCornerMask_get (by omega) (by omega)]
    norm_num [hotCornerGrid_get]
  · intro i j hi hj hmask hne
    rw [hotCornerMask_get hi hj] at hmask
    have hm : ¬(i = 0 ∧ j = 0) := of_decide_eq_true hmask
    rw [step_hot_get hi hj, hotCornerMask_get hi hj, avgNeighbors_hot]
    have e1 : hotCornerGrid.get ((i + 1) % 10) j = 0 := by
      rw [hotCornerGrid_get (Nat.mod_lt _ (by omega)) hj, if_neg (by omega)]
    have e2 : hotCornerGrid.get ((i + 9) % 10) j = 0 := by
      rw [hotCornerGrid_get (Nat.mod_lt _ (by omega)) hj, if_neg (by omega)]
    have e3 : hotCornerGrid.get i ((j + 1) % 10) = 0 := by
      rw [hotCornerGrid_get hi (Nat.mod_lt _ (by omega)), if_neg (by omega)]
    have e4 : hotCornerGrid.get i ((j + 9) % 10) = 0 := by
      rw [hotCornerGrid_get hi (Nat.mod_lt _ (by omega)), if_neg (by omega)]
    rw [if_pos hmask, e1, e2, e3, e4,
      hotCornerGrid_get hi hj, if_neg hm]
    ring

/- ------------------------------------------------------------------ -/
/- SOR stepper.                                                       -/
/- ------------------------------------------------------------------ -/

/-- Body of the double loop of `step_sor_2D`: if `mask[i,j]`, overwrite
`u[i,j]` with `(1-omega)*u[i,j] + omega*(u[i+1,j]+u[i-1,j]+u[i,j+1]+u[i,j-1])/4`,
reading the current, partially-updated grid. -/
def sorCell (m : Mask) (omega : ℚ) (g : Grid) (i j : Nat) : Grid :=
  if m.get i j then
    g.set i j ((1 - omega) * g.get i j +
      omega * ((g.get (i + 1) j + g.get (i - 1) j +
                g.get i (j + 1) + g.get i (j - 1)) / 4))
  else g

/-- One SOR sweep (`step_sor_2D`): visit interior cells
`(1,1)..(rows-2, cols-2)` in row-major order, updating in place. -/
def step_sor_2D (u : Grid) (m : Mask) (omega : ℚ) : Grid :=
  (List.range' 1 (u.rows - 2)).foldl
    (fun g i =>
      (List.range' 1 (u.cols - 2)).foldl (fun g2 j => sorCell m omega g2 i j) g)
    u

/- ------------------------------------------------------------------ -/
/- Convergence test.                                                  -/
/- ------------------------------------------------------------------ -/

/-- Row-major list of cell indices where the mask is true: the order in
which numpy's boolean indexing `u[mask]` extracts entries. -/
def maskIdx (m : Mask) : List (Nat × Nat) :=
  ((List.range (m.rows * m.cols)).map (fun k => (k / m.cols, k % m.cols))).filter
    (fun p => m.get p.1 p.2)

/-- The vector `u_new[mask] - u[mask]`. -/
def diffMasked (uNew uOld : Grid) (m : Mask) : List ℚ :=
  (maskIdx m).map (fun p => uNew.get p.1 p.2 - uOld.get p.1 p.2)

/-- Sum of squares: the square of `np.linalg.norm`. -/
def normSq (xs : List ℚ) : ℚ := (xs.map (fun x => x * x)).sum

/-- The convergence test `np.linalg.norm(d) < tol`, embedded decidably as
`0 < tol ∧ Σ d² < tol²`; `normLtTol_iff_sqrt` shows this is exactly
`√(Σ d²) < tol` over the reals. -/
def normLtTol (xs : List ℚ) (tol : ℚ) : Bool :=
  decide (0 < tol ∧ normSq xs < tol * tol)

theorem normSq_nonneg (xs : List ℚ) : 0 ≤ normSq xs := by
  refine List.sum_nonneg ?_
  intro y hy
  simp only [List.mem_map] at hy
  obtain ⟨x, -, rfl⟩ := hy
  exact mul_self_nonneg x

/-- The decidable convergence test agrees with the Euclidean-norm test of
the source: `normLtTol d tol` holds iff `√(Σ d²) < tol` in `ℝ`. -/
theorem normLtTol_iff_sqrt (xs : List ℚ) (tol : ℚ) :
    normLtTol xs tol = true ↔ Real.sqrt ((normSq xs : ℚ) : ℝ) < ((tol : ℚ) : ℝ) := by
  unfold normLtTol
  rw [decide_eq_true_eq]
  constructor
  · rintro ⟨h1, h2⟩
    have h1R : (0 : ℝ) < ((tol : ℚ) : ℝ) := by exact_mod_cast h1
    rw [Real.sqrt_lt' h1R]
    have h2R : ((normSq xs : ℚ) : ℝ) < ((tol * tol : ℚ) : ℝ) := by exact_mod_cast h2
    calc ((normSq xs : ℚ) : ℝ) < ((tol * tol : ℚ) : ℝ) := h2R
      _ = ((tol : ℚ) : ℝ) ^ 2 := by push_cast; ring
  · intro h
    have h1R : (0 : ℝ) < ((tol : ℚ) : ℝ) :=
      lt_of_le_of_lt (Real.sqrt_nonneg _) h
    have h1 : 0 < tol := by exact_mod_cast h1R
    refine ⟨h1, ?_⟩
    rw [Real.sqrt_lt' h1R] at h
    have h2R : ((normSq xs : ℚ) : ℝ) < ((tol * tol : ℚ) : ℝ) := by
      calc ((normSq xs : ℚ) : ℝ) < ((tol : ℚ) : ℝ) ^ 2 := h
        _ = ((tol * tol : ℚ) : ℝ) := by push_cast; ring
    exact_mod_cast h2R

theorem normLtTol_of_nonpos (xs : List ℚ) {tol : ℚ} (h : tol ≤ 0) :
    normLtTol xs tol = false := by
  unfold normLtTol
  rw [decide_eq_false_iff_not]
  rintro ⟨h1, -⟩
  linarith

/- ------------------------------------------------------------------ -/
/- Solver loops.                                                      -/
/- ------------------------------------------------------------------ -/

/-- The solver loop shared by `inpaint_jacobi` and `inpaint_sor`: `fuel`
iterations remain, `it` iterations are already done.  Returns the final
grid and `some count` on early convergence, `none` if the loop exhausts. -/
def solveLoop (stepF : Grid → Grid) (m : Mask) (tol : ℚ) :
    Grid → Nat → Nat → Grid × Option Nat
  | u, _, 0 => (u, none)
  | u, it, fuel + 1 =>
    let uNew := stepF u
    if normLtTol (diffMasked uNew u m) tol then (uNew, some (it + 1))
    else solveLoop stepF m tol uNew (it + 1) fuel

/-- `inpaint_jacobi`: copy the image, iterate the Jacobi step up to
`max_iter` times, returning early with count `it+1` when the masked
difference norm drops below `tol`, else the final grid with `max_iter`. -/
def inpaint_jacobi (image : Grid) (m : Mask) (tol : ℚ) (max_iter : ℤ)
    (omega : ℚ) : Grid × ℤ :=
  match solveLoop (fun u => step_jacobi_2D u m omega) m tol image 0 max_iter.toNat with
  | (u, some k) => (u, (k : ℤ))
  | (u, none) => (u, max_iter)

/-- `inpaint_sor`: same loop with the SOR sweep (the sweep mutating the
iterate in place, the diff taken against the copy made before it). -/
def inpaint_sor (image : Grid) (m : Mask) (tol : ℚ) (max_iter : ℤ)
    (omega : ℚ) : Grid × ℤ :=
  match solveLoop (fun u => step_sor_2D u m omega) m tol image 0 max_iter.toNat with
  | (u, some k) => (u, (k : ℤ))
  | (u, none) => (u, max_iter)

/-- `find_optimal_omega_sor`: run the SOR solver for every candidate in
order, keeping the first candidate that strictly lowers the
fewest-iterations accumulator (initially `nIter`, with no omega selected). -/
def find_optimal_omega_sor (image : Grid) (m : Mask) (omega_values : List ℚ)
    (nIter : ℤ) (abstol : ℚ) : Option ℚ × ℤ :=
  omega_values.foldl
    (fun acc omega =>
      if (inpaint_sor image m abstol nIter omega).2 < acc.2 then
        (some omega, (inpaint_sor image m abstol nIter omega).2)
      else acc)
    (none, nIter)

/-- `n`-fold application of a stepper to the initial image. -/
def iterateStep (stepF : Grid → Grid) : Nat → Grid → Grid
  | 0, u => u
  | n + 1, u => stepF (iterateStep stepF n u)

/-- The `n`-th Jacobi iterate of the solver loop. -/
def jacobiIterate (image : Grid) (m : Mask) (omega : ℚ) (n : Nat) : Grid :=
  iterateStep (fun u => step_jacobi_2D u m omega) n image

/-- The `n`-th SOR iterate of the solver loop. -/
def sorIterate (image : Grid) (m : Mask) (omega : ℚ) (n : Nat) : Grid :=
  iterateStep (fun u => step_sor_2D u m omega) n image

/- ------------------------------------------------------------------ -/
/- Characterization of the solver loop.                               -/
/- ------------------------------------------------------------------ -/

theorem solveLoop_no_conv (stepF : Grid → Grid) (m : Mask) (tol : ℚ)
    (image : Grid) :
    ∀ (fuel a : Nat),
      (∀ k, k < fuel →
        normLtTol (diffMasked (iterateStep stepF (a + k + 1) image)
          (iterateStep stepF (a + k) image) m) tol = false) →
      solveLoop stepF m tol (iterateStep stepF a image) a fuel =
        (iterateStep stepF (a + fuel) image, none) := by
  intro fuel
  induction fuel with
  | zero => intro a _; simp [solveLoop]
  | succ fuel ih =>
    intro a h
    have hstep : stepF (iterateStep stepF a image) = iterateStep stepF (a + 1) image := rfl
    have h0 := h 0 (by omega)
    simp only [Nat.add_zero] at h0
    rw [solveLoop, hstep, h0]
    simp only [Bool.false_eq_true, if_false]
    have := ih (a + 1) (by
      intro k hk
      have := h (k + 1) (by omega)
      have e1 : a + 1 + k = a + (k + 1) := by omega
      rw [e1]
      simpa [Nat.add_assoc] using this)
    rw [this]
    have e2 : a + 1 + fuel = a + (fuel + 1) := by omega
    rw [e2]

theorem solveLoop_conv (stepF : Grid → Grid) (m : Mask) (tol : ℚ)
    (image : Grid) :
    ∀ (fuel a n0 : Nat), n0 < fuel →
      normLtTol (diffMasked (iterateStep stepF (a + n0 + 1) image)
        (iterateStep stepF (a + n0) image) m) tol = true →
      (∀ j, j < n0 →
        normLtTol (diffMasked (iterateStep stepF (a + j + 1) image)
          (iterateStep stepF (a + j) image) m) tol = false) →
      solveLoop stepF m tol (iterateStep stepF a image) a fuel =
        (iterateStep stepF (a + n0 + 1) image, some (a + n0 + 1)) := by
  intro fuel
  induction fuel with
  | zero => intro a n0 h; omega
  | succ fuel ih =>
    intro a n0 hlt hconv hbefore
    have hstep : stepF (iterateStep stepF a image) = iterateStep stepF (a + 1) image := rfl
    match n0 with
    | 0 =>
      have h0 : normLtTol (diffMasked (iterateStep stepF (a + 1) image)
          (iterateStep stepF a image) m) tol = true := by
        simpa using hconv
      rw [solveLoop, hstep, h0]
      simp
    | k + 1 =>
      have h0 := hbefore 0 (by omega)
      simp only [Nat.add_zero] at h0
      rw [solveLoop, hstep, h0]
      simp only [Bool.false_eq_true, if_false]
      have hconv2 : normLtTol (diffMasked (iterateStep stepF (a + 1 + k + 1) image)
          (iterateStep stepF (a + 1 + k) image) m) tol = true := by
        have e : a + 1 + k = a + (k + 1) := by omega
        rw [e]
        exact hconv
      have hbefore2 : ∀ j, j < k →
          normLtTol (diffMasked (iterateStep stepF (a + 1 + j + 1) image)
            (iterateStep stepF (a + 1 + j) image) m) tol = false := by
        intro j hj
        have e : a + 1 + j = a + (j + 1) := by omega
        rw [e]
        exact hbefore (j + 1) (by omega)
      have := ih (a + 1) k (by omega) hconv2 hbefore2
      rw [this]
      have e : a + 1 + k + 1 = a + (k + 1) + 1 := by omega
      rw [e]

/- ------------------------------------------------------------------ -/
/- Claim C1: the Jacobi solver loop contract.                         -/
/- ------------------------------------------------------------------ -/

/-- Claim C1: `inpaint_jacobi` loops at most `max_iter` times; at the first
iteration whose masked-difference Euclidean norm is strictly below the
tolerance it returns the just-updated grid with count `loop index + 1`, and
if no iteration converges it returns the final grid with `max_iter`. -/
theorem inpaint_jacobi_loop_spec (image : Grid) (m : Mask) (tol : ℚ)
    (max_iter : ℤ) (omega : ℚ) :
    (∃ n0 : Nat, n0 < max_iter.toNat ∧
      Real.sqrt ((normSq (diffMasked (jacobiIterate image m omega (n0 + 1))
        (jacobiIterate image m omega n0) m) : ℚ) : ℝ) < ((tol : ℚ) : ℝ) ∧
      (∀ j, j < n0 →
        ¬ Real.sqrt ((normSq (diffMasked (jacobiIterate image m omega (j + 1))
          (jacobiIterate image m omega j) m) : ℚ) : ℝ) < ((tol : ℚ) : ℝ)) ∧
      inpaint_jacobi image m tol max_iter omega =
        (jacobiIterate image m omega (n0 + 1), (n0 : ℤ) + 1)) ∨
    ((∀ n, n < max_iter.toNat →
        ¬ Real.sqrt ((normSq (diffMasked (jacobiIterate image m omega (n + 1))
          (jacobiIterate image m omega n) m) : ℚ) : ℝ) < ((tol : ℚ) : ℝ)) ∧
      inpaint_jacobi image m tol max_iter omega =
        (jacobiIterate image m omega max_iter.toNat, max_iter)) := by
  simp only [jacobiIterate]
  by_cases hex : ∃ n,
      normLtTol (diffMasked (iterateStep (fun u => step_jacobi_2D u m omega) (n + 1) image)
        (iterateStep (fun u => step_jacobi_2D u m omega) n image) m) tol = true ∧
      n < max_iter.toNat
  · left
    have hn0 := Nat.find_spec hex
    set n0 := Nat.find hex with hn0def
    have hbefore : ∀ j, j < n0 →
        normLtTol (diffMasked (iterateStep (fun u => step_jacobi_2D u m omega) (j + 1) image)
          (iterateStep (fun u => step_jacobi_2D u m omega) j image) m) tol = false := by
      intro j hj
      have hmin := Nat.find_min hex hj
      have hjB : j < max_iter.toNat := by omega
      rcases Bool.eq_false_or_eq_true (normLtTol (diffMasked
        (iterateStep (fun u => step_jacobi_2D u m omega) (j + 1) image)
        (iterateStep (fun u => step_jacobi_2D u m omega) j image) m) tol) with hb | hb
      · exact absurd ⟨hb, hjB⟩ hmin
      · exact hb
    have k := solveLoop_conv (fun u => step_jacobi_2D u m omega) m tol image
      max_iter.toNat 0 n0 hn0.2
      (by simpa only [Nat.zero_add] using hn0.1)
      (by intro j hj; simpa only [Nat.zero_add] using hbefore j hj)
    simp only [Nat.zero_add] at k
    have k2 : solveLoop (fun u => step_jacobi_2D u m omega) m tol image 0 max_iter.toNat =
        (iterateStep (fun u => step_jacobi_2D u m omega) (n0 + 1) image, some (n0 + 1)) := k
    refine ⟨n0, hn0.2, (normLtTol_iff_sqrt _ _).mp hn0.1, ?_, ?_⟩
    · intro j hj hsq
      have := (normLtTol_iff_sqrt _ _).mpr hsq
      rw [hbefore j hj] at this
      exact absurd this (by simp)
    · unfold inpaint_jacobi
      rw [k2]
      simp [Nat.cast_add]
  · right
    push_neg at hex
    have hall : ∀ n, n < max_iter.toNat →
        normLtTol (diffMasked (iterateStep (fun u => step_jacobi_2D u m omega) (n + 1) image)
          (iterateStep (fun u => step_jacobi_2D u m omega) n image) m) tol = false := by
      intro n hn
      rcases Bool.eq_false_or_eq_true (normLtTol (diffMasked
        (iterateStep (fun u => step_jacobi_2D u m omega) (n + 1) image)
        (iterateStep (fun u => step_jacobi_2D u m omega) n image) m) tol) with hb | hb
      · exact absurd hn (Nat.not_lt.mpr (hex n hb))
      · exact hb
    have k := solveLoop_no_conv (fun u => step_jacobi_2D u m omega) m tol image
      max_iter.toNat 0
      (by intro j hj; simpa only [Nat.zero_add] using hall j hj)
    simp only [Nat.zero_add] at k
    have k2 : solveLoop (fun u => step_jacobi_2D u m omega) m tol image 0 max_iter.toNat =
        (iterateStep (fun u => step_jacobi_2D u m omega) max_iter.toNat image, none) := k
    refine ⟨?_, ?_⟩
    · intro n hn hsq
      have := (normLtTol_iff_sqrt _ _).mpr hsq
      rw [hall n hn] at this
      exact absurd this (by simp)
    · unfold inpaint_jacobi
      rw [k2]

/- ------------------------------------------------------------------ -/
/- Claims C8, C9, C10: edge cases of the solver loops.                -/
/- ------------------------------------------------------------------ -/

/-- 1×1 image used in concrete edge-case instances. -/
def unitGrid : Grid := ⟨1, 1, [5]⟩

/-- 1×1 all-true mask. -/
def unitMaskTrue : Mask := ⟨1, 1, [true]⟩

/-- 1×1 all-false mask. -/
def unitMaskFalse : Mask := ⟨1, 1, [false]⟩

/-- A mask whose lookup is false at every cell. -/
def noCellsMask : Mask := ⟨2, 2, []⟩

theorem noCellsMask_get (i j : Nat) : noCellsMask.get i j = false := by
  unfold noCellsMask Mask.get
  simp

/-- Claim C8 (amended): with `max_iter ≤ 0` the loop body never runs and
both solvers return the input image paired with `max_iter` itself (which
is the claimed count `0` only when `max_iter = 0`). -/
theorem max_iter_nonpos_returns_input (image : Grid) (m : Mask) (tol : ℚ)
    (max_iter : ℤ) (omega : ℚ) (h : max_iter ≤ 0) :
    inpaint_jacobi image m tol max_iter omega = (image, max_iter) ∧
    inpaint_sor image m tol max_iter omega = (image, max_iter) := by
  have hB : max_iter.toNat = 0 := by omega
  constructor
  · unfold inpaint_jacobi
    rw [hB]
    rfl
  · unfold inpaint_sor
    rw [hB]
    rfl

/-- Witness for `max_iter_nonpos_returns_input` at `max_iter = -2`. -/
theorem max_iter_nonpos_returns_input_witness :
    ((-2 : ℤ) ≤ 0) ∧
    (inpaint_jacobi unitGrid unitMaskFalse 1 (-2) 1 = (unitGrid, -2) ∧
     inpaint_sor unitGrid unitMaskFalse 1 (-2) 1 = (unitGrid, -2)) :=
  ⟨by decide, max_iter_nonpos_returns_input unitGrid unitMaskFalse 1 (-2) 1 (by decide)⟩

/-- Counterexample to claim C8 as stated: with `max_iter = -1` the solvers
return iteration count `-1`, not `0`. -/
theorem max_iter_negative_count_not_zero :
    inpaint_jacobi unitGrid unitMaskFalse 1 (-1) 1 = (unitGrid, -1) ∧
    inpaint_sor unitGrid unitMaskFalse 1 (-1) 1 = (unitGrid, -1) ∧
    (-1 : ℤ) ≠ 0 := by
  refine ⟨?_, ?_, by decide⟩
  · have hB : (-1 : ℤ).toNat = 0 := by decide
    unfold inpaint_jacobi
    rw [hB]
    rfl
  · have hB : (-1 : ℤ).toNat = 0 := by decide
    unfold inpaint_sor
    rw [hB]
    rfl

theorem solvers_tol_nonpos (image : Grid) (m : Mask) (tol : ℚ)
    (max_iter : ℤ) (omega : ℚ) (htol : tol ≤ 0) :
    inpaint_jacobi image m tol max_iter omega =
      (jacobiIterate image m omega max_iter.toNat, max_iter) ∧
    inpaint_sor image m tol max_iter omega =
      (sorIterate image m omega max_iter.toNat, max_iter) := by
  constructor
  · have k := solveLoop_no_conv (fun u => step_jacobi_2D u m omega) m tol image
      max_iter.toNat 0 (by intro j hj; exact normLtTol_of_nonpos _ htol)
    simp only [Nat.zero_add] at k
    have k2 : solveLoop (fun u => step_jacobi_2D u m omega) m tol image 0 max_iter.toNat =
        (iterateStep (fun u => step_jacobi_2D u m omega) max_iter.toNat image, none) := k
    unfold inpaint_jacobi
    rw [k2]
    rfl
  · have k := solveLoop_no_conv (fun u => step_sor_2D u m omega) m tol image
      max_iter.toNat 0 (by intro j hj; exact normLtTol_of_nonpos _ htol)
    simp only [Nat.zero_add] at k
    have k2 : solveLoop (fun u => step_sor_2D u m omega) m tol image 0 max_iter.toNat =
        (iterateStep (fun u => step_sor_2D u m omega) max_iter.toNat image, none) := k
    unfold inpaint_sor
    rw [k2]
    rfl

/-- Claim C9: with `tol ≤ 0` the convergence test never fires: both solvers
run all `max_iter` sweeps and return normally with count `max_iter`. -/
theorem tol_nonpos_runs_full (image : Grid) (m : Mask) (tol : ℚ)
    (max_iter : ℤ) (omega : ℚ) (htol : tol ≤ 0) (_hmi : 1 ≤ max_iter) :
    inpaint_jacobi image m tol max_iter omega =
      (jacobiIterate image m omega max_iter.toNat, max_iter) ∧
    inpaint_sor image m tol max_iter omega =
      (sorIterate image m omega max_iter.toNat, max_iter) :=
  solvers_tol_nonpos image m tol max_iter omega htol

/-- Witness for `tol_nonpos_runs_full` at `tol = 0`, `max_iter = 2`. -/
theorem tol_nonpos_runs_full_witness :
    ((0 : ℚ) ≤ 0 ∧ (1 : ℤ) ≤ 2) ∧
    (inpaint_jacobi unitGrid unitMaskTrue 0 2 1 =
      (jacobiIterate unitGrid unitMaskTrue 1 (2 : ℤ).toNat, 2) ∧
     inpaint_sor unitGrid unitMaskTrue 0 2 1 =
      (sorIterate unitGrid unitMaskTrue 1 (2 : ℤ).toNat, 2)) :=
  ⟨⟨le_refl 0, by decide⟩,
   tol_nonpos_runs_full unitGrid unitMaskTrue 0 2 1 (le_refl 0) (by decide)⟩

/-- Claim C10: if the mask is false at every cell, the masked difference is
an empty vector with norm `0 < tol`, so both solvers return after exactly
one iteration. -/
theorem mask_all_false_converges_first (image : Grid) (m : Mask) (tol : ℚ)
    (max_iter : ℤ) (omega : ℚ) (hmask : ∀ i j, m.get i j = false)
    (htol : 0 < tol) (hmi : 1 ≤ max_iter) :
    (inpaint_jacobi image m tol max_iter omega).2 = 1 ∧
    (inpaint_sor image m tol max_iter omega).2 = 1 := by
  have hidx : maskIdx m = [] := by
    unfold maskIdx
    rw [List.filter_eq_nil_iff]
    intro p hp
    simp [hmask p.1 p.2]
  have hconv : ∀ uNew uOld : Grid,
      normLtTol (diffMasked uNew uOld m) tol = true := by
    intro uNew uOld
    have hd : diffMasked uNew uOld m = [] := by
      unfold diffMasked
      rw [hidx]
      rfl
    rw [hd]
    exact decide_eq_true ⟨htol, by
      have : normSq ([] : List ℚ) = 0 := rfl
      rw [this]
      exact mul_pos htol htol⟩
  have hfuel : ∃ k, max_iter.toNat = k + 1 := ⟨max_iter.toNat - 1, by omega⟩
  obtain ⟨k, hk⟩ := hfuel
  constructor
  · have key := solveLoop_conv (fun u => step_jacobi_2D u m omega) m tol image
      max_iter.toNat 0 0 (by omega) (hconv _ _) (by intro j hj; omega)
    simp only [Nat.zero_add] at key
    have k2 : solveLoop (fun u => step_jacobi_2D u m omega) m tol image 0 max_iter.toNat =
        (iterateStep (fun u => step_jacobi_2D u m omega) 1 image, some 1) := key
    unfold inpaint_jacobi
    rw [k2]
    rfl
  · have key := solveLoop_conv (fun u => step_sor_2D u m omega) m tol image
      max_iter.toNat 0 0 (by omega) (hconv _ _) (by intro j hj; omega)
    simp only [Nat.zero_add] at key
    have k2 : solveLoop (fun u => step_sor_2D u m omega) m tol image 0 max_iter.toNat =
        (iterateStep (fun u => step_sor_2D u m omega) 1 image, some 1) := key
    unfold inpaint_sor
    rw [k2]
    rfl

/-- Witness for `mask_all_false_converges_first` on a mask with no cells. -/
theorem mask_all_false_converges_first_witness :
    ((∀ i j, noCellsMask.get i j = false) ∧ (0 : ℚ) < 1 ∧ (1 : ℤ) ≤ 3) ∧
    ((inpaint_jacobi unitGrid noCellsMask 1 3 1).2 = 1 ∧
     (inpaint_sor unitGrid noCellsMask 1 3 1).2 = 1) :=
  ⟨⟨noCellsMask_get, zero_lt_one, by decide⟩,
   mask_all_false_converges_first unitGrid noCellsMask 1 3 1 noCellsMask_get
     zero_lt_one (by decide)⟩

/- ------------------------------------------------------------------ -/
/- Claims C2, C6: the omega search.                                   -/
/- ------------------------------------------------------------------ -/

theorem selectBest_spec (c : ℚ → ℤ) :
    ∀ (ws : List ℚ) (acc : Option ℚ × ℤ),
      (∃ k, ∃ hk : k < ws.length,
        ws.foldl (fun a w => if c w < a.2 then (some w, c w) else a) acc =
          (some ws[k], c ws[k]) ∧
        c ws[k] < acc.2 ∧
        (∀ j, ∀ hj : j < ws.length, j < k → c ws[k] < c ws[j]) ∧
        (∀ j, ∀ hj : j < ws.length, c ws[k] ≤ c ws[j])) ∨
      ((∀ j, ∀ hj : j < ws.length, ¬ c ws[j] < acc.2) ∧
        ws.foldl (fun a w => if c w < a.2 then (some w, c w) else a) acc = acc) := by
  intro ws
  induction ws with
  | nil =>
    intro acc
    right
    constructor
    · intro j hj
      simp at hj
    · rfl
  | cons w ws ih =>
    intro acc
    simp only [List.foldl_cons]
    by_cases hw : c w < acc.2
    · rw [if_pos hw]
      rcases ih (some w, c w) with ⟨k, hk, heq, hlt, hearlier, hmin⟩ | ⟨hall, heq⟩
      · left
        refine ⟨k + 1, by simpa using Nat.succ_lt_succ hk, ?_, ?_, ?_, ?_⟩
        · simpa using heq
        · have hltw : c ws[k] < c w := by simpa using hlt
          exact lt_trans hltw hw
        · intro j hj hjk
          match j with
          | 0 => simpa using hlt
          | j' + 1 =>
            have hj' : j' < ws.length := by simpa using hj
            have := hearlier j' hj' (by omega)
            simpa using this
        · intro j hj
          match j with
          | 0 =>
            have hltw : c ws[k] < c w := by simpa using hlt
            simpa using le_of_lt hltw
          | j' + 1 =>
            have hj' : j' < ws.length := by simpa using hj
            simpa using hmin j' hj'
      · left
        refine ⟨0, by simp, ?_, ?_, ?_, ?_⟩
        · simpa using heq
        · simpa using hw
        · intro j hj hjk
          omega
        · intro j hj
          match j with
          | 0 => simp
          | j' + 1 =>
            have hj' : j' < ws.length := by simpa using hj
            have := hall j' hj'
            have hle : c w ≤ c ws[j'] := by
              have := not_lt.mp (by simpa using this)
              exact this
            simpa using hle
    · rw [if_neg hw]
      rcases ih acc with ⟨k, hk, heq, hlt, hearlier, hmin⟩ | ⟨hall, heq⟩
      · left
        have hwle : acc.2 ≤ c w := not_lt.mp hw
        refine ⟨k + 1, by simpa using Nat.succ_lt_succ hk, ?_, ?_, ?_, ?_⟩
        · simpa using heq
        · exact hlt
        · intro j hj hjk
          match j with
          | 0 => simpa using lt_of_lt_of_le hlt hwle
          | j' + 1 =>
            have hj' : j' < ws.length := by simpa using hj
            simpa using hearlier j' hj' (by omega)
        · intro j hj
          match j with
          | 0 => simpa using le_of_lt (lt_of_lt_of_le hlt hwle)
          | j' + 1 =>
            have hj' : j' < ws.length := by simpa using hj
            simpa using hmin j' hj'
      · right
        refine ⟨?_, heq⟩
        intro j hj
        match j with
        | 0 => simpa using hw
        | j' + 1 =>
          have hj' : j' < ws.length := by simpa using hj
          simpa using hall j' hj'

/-- Claim C2: `find_optimal_omega_sor` returns the first candidate attaining
the overall smallest SOR iteration count — its count is strictly smaller
than every earlier candidate's and strictly below `nIter` — paired with
that smallest count; if no candidate's count is strictly below `nIter`, it
returns `(none, nIter)`. -/
theorem find_optimal_omega_sor_spec (image : Grid) (m : Mask)
    (omega_values : List ℚ) (nIter : ℤ) (abstol : ℚ) :
    (∃ k, ∃ hk : k < omega_values.length,
      find_optimal_omega_sor image m omega_values nIter abstol =
        (some omega_values[k], (inpaint_sor image m abstol nIter omega_values[k]).2) ∧
      (inpaint_sor image m abstol nIter omega_values[k]).2 < nIter ∧
      (∀ j, ∀ hj : j < omega_values.length, j < k →
        (inpaint_sor image m abstol nIter omega_values[k]).2 <
          (inpaint_sor image m abstol nIter omega_values[j]).2) ∧
      (∀ j, ∀ hj : j < omega_values.length,
        (inpaint_sor image m abstol nIter omega_values[k]).2 ≤
          (inpaint_sor image m abstol nIter omega_values[j]).2)) ∨
    ((∀ j, ∀ hj : j < omega_values.length,
        ¬ (inpaint_sor image m abstol nIter omega_values[j]).2 < nIter) ∧
      find_optimal_omega_sor image m omega_values nIter abstol = (none, nIter)) := by
  have h := selectBest_spec (fun w => (inpaint_sor image m abstol nIter w).2)
    omega_values (none, nIter)
  rcases h with ⟨k, hk, heq, hlt, hearlier, hmin⟩ | ⟨hall, heq⟩
  · left
    exact ⟨k, hk, heq, hlt, hearlier, hmin⟩
  · right
    exact ⟨hall, heq⟩

/-- Claim C6 (amended): on a singleton candidate list `[w]`, the omega
search returns `(some w, n)` with `n` the iteration count of one SOR run
when `n < nIter`; when the trial does not strictly beat the cap
(`n = nIter`, e.g. no convergence within `nIter`), it returns
`(none, nIter)` instead of the candidate. -/
theorem find_optimal_singleton (image : Grid) (m : Mask) (w : ℚ)
    (nIter : ℤ) (abstol : ℚ) :
    find_optimal_omega_sor image m [w] nIter abstol =
      if (inpaint_sor image m abstol nIter w).2 < nIter then
        (some w, (inpaint_sor image m abstol nIter w).2)
      else (none, nIter) := by
  unfold find_optimal_omega_sor
  simp only [List.foldl_cons, List.foldl_nil]

/-- Counterexample to claim C6 as stated: a singleton trial that fails to
converge (here `tol = 0`, cap `nIter = 1`) yields the sentinel
`(none, nIter)`, not the candidate paired with its count. -/
theorem find_optimal_singleton_counterexample :
    find_optimal_omega_sor unitGrid unitMaskTrue [3 / 2] 1 0 = (none, 1) ∧
    (inpaint_sor unitGrid unitMaskTrue 0 1 (3 / 2)).2 = 1 ∧
    ((none : Option ℚ), (1 : ℤ)) ≠ (some (3 / 2 : ℚ), (1 : ℤ)) := by
  have hsor : inpaint_sor unitGrid unitMaskTrue 0 1 (3 / 2) = (unitGrid, 1) :=
    (solvers_tol_nonpos unitGrid unitMaskTrue 0 1 (3 / 2) (le_refl 0)).2
  refine ⟨?_, by rw [hsor], by simp⟩
  unfold find_optimal_omega_sor
  simp only [List.foldl_cons, List.foldl_nil, hsor]
  rw [if_neg (lt_irrefl (1 : ℤ))]

/- ------------------------------------------------------------------ -/
/- Claim C3: shape preservation and the frame property.               -/
/- ------------------------------------------------------------------ -/

/-- Invariant carried through the solver loops: same shape as the input
image and agreement with it on every unmasked in-range cell. -/
def framePres (image : Grid) (m : Mask) (g : Grid) : Prop :=
  g.rows = image.rows ∧ g.cols = image.cols ∧
  g.data.length = image.rows * image.cols ∧
  ∀ i j, i < image.rows → j < image.cols → m.get i j = false →
    g.get i j = image.get i j

theorem framePres_step_jacobi (image : Grid) (m : Mask) (omega : ℚ) {g : Grid}
    (h : framePres image m g) : framePres image m (step_jacobi_2D g m omega) := by
  obtain ⟨hr, hc, hl, hget⟩ := h
  unfold step_jacobi_2D
  refine ⟨by rw [Grid.ofFn_rows, hr], by rw [Grid.ofFn_cols, hc],
    by rw [Grid.ofFn_length, hr, hc], ?_⟩
  intro i j hi hj hm
  rw [Grid.ofFn_get _ _ _ (by rw [hr]; exact hi) (by rw [hc]; exact hj), hm]
  simp only [Bool.false_eq_true, if_false]
  exact hget i j hi hj hm

theorem framePres_sorCell (image : Grid) (m : Mask) (omega : ℚ) {g : Grid}
    (h : framePres image m g) (a b : Nat) (hb : b < image.cols) :
    framePres image m (sorCell m omega g a b) := by
  obtain ⟨hr, hc, hl, hget⟩ := h
  unfold sorCell
  by_cases hm : m.get a b
  · rw [if_pos hm]
    refine ⟨hr, hc, by simpa [Grid.set] using hl, ?_⟩
    intro i j hi hj hmf
    have hne : ¬(i = a ∧ j = b) := by
      rintro ⟨rfl, rfl⟩
      rw [hmf] at hm
      exact absurd hm (by simp)
    rw [Grid.get_set_ne _ _ (by rw [hc]; exact hj) (by rw [hc]; exact hb) hne]
    exact hget i j hi hj hmf
  · rw [if_neg hm]
    exact ⟨hr, hc, hl, hget⟩

theorem framePres_sorFold_inner (image : Grid) (m : Mask) (omega : ℚ) (a : Nat) :
    ∀ (js : List Nat) (g : Grid), framePres image m g →
      (∀ b ∈ js, b < image.cols) →
      framePres image m (js.foldl (fun g2 j => sorCell m omega g2 a j) g) := by
  intro js
  induction js with
  | nil => intro g h _; exact h
  | cons b js ih =>
    intro g h hmem
    simp only [List.foldl_cons]
    exact ih _ (framePres_sorCell image m omega h a b (hmem b (by simp)))
      (fun x hx => hmem x (by simp [hx]))

theorem framePres_sorFold_outer (image : Grid) (m : Mask) (omega : ℚ)
    (cols2 : Nat) (hcols : ∀ b ∈ List.range' 1 cols2, b < image.cols) :
    ∀ (is : List Nat) (g : Grid), framePres image m g →
      framePres image m (is.foldl
        (fun g2 i => (List.range' 1 cols2).foldl (fun g3 j => sorCell m omega g3 i j) g2) g) := by
  intro is
  induction is with
  | nil => intro g h; exact h
  | cons a is ih =>
    intro g h
    simp only [List.foldl_cons]
    exact ih _ (framePres_sorFold_inner image m omega a _ g h hcols)

theorem framePres_step_sor (image : Grid) (m : Mask) (omega : ℚ) {g : Grid}
    (h : framePres image m g) : framePres image m (step_sor_2D g m omega) := by
  have hc : g.cols = image.cols := h.2.1
  have hcols : ∀ b ∈ List.range' 1 (g.cols - 2), b < image.cols := by
    intro b hb
    rw [List.mem_range'] at hb
    obtain ⟨i, hi, rfl⟩ := hb
    omega
  exact framePres_sorFold_outer image m omega (g.cols - 2) hcols
    (List.range' 1 (g.rows - 2)) g h

theorem framePres_solveLoop (image : Grid) (m : Mask) (stepF : Grid → Grid)
    (tol : ℚ) (hstep : ∀ g, framePres image m g → framePres image m (stepF g)) :
    ∀ (fuel : Nat) (g : Grid) (it : Nat), framePres image m g →
      framePres image m (solveLoop stepF m tol g it fuel).1 := by
  intro fuel
  induction fuel with
  | zero => intro g it h; exact h
  | succ fuel ih =>
    intro g it h
    have hun : solveLoop stepF m tol g it (fuel + 1) =
        if normLtTol (diffMasked (stepF g) g m) tol then (stepF g, some (it + 1))
        else solveLoop stepF m tol (stepF g) (it + 1) fuel := rfl
    rw [hun]
    by_cases hc : normLtTol (diffMasked (stepF g) g m) tol = true
    · rw [if_pos hc]
      exact hstep g h
    · rw [if_neg hc]
      exact ih (stepF g) (it + 1) (hstep g h)

theorem inpaint_jacobi_fst (image : Grid) (m : Mask) (tol : ℚ) (max_iter : ℤ)
    (omega : ℚ) :
    (inpaint_jacobi image m tol max_iter omega).1 =
      (solveLoop (fun u => step_jacobi_2D u m omega) m tol image 0 max_iter.toNat).1 := by
  unfold inpaint_jacobi
  rcases hS : solveLoop (fun u => step_jacobi_2D u m omega) m tol image 0 max_iter.toNat
    with ⟨u, o⟩
  cases o <;> rfl

theorem inpaint_sor_fst (image : Grid) (m : Mask) (tol : ℚ) (max_iter : ℤ)
    (omega : ℚ) :
    (inpaint_sor image m tol max_iter omega).1 =
      (solveLoop (fun u => step_sor_2D u m omega) m tol image 0 max_iter.toNat).1 := by
  unfold inpaint_sor
  rcases hS : solveLoop (fun u => step_sor_2D u m omega) m tol image 0 max_iter.toNat
    with ⟨u, o⟩
  cases o <;> rfl

/-- Claim C3: both solvers return a grid with the same shape as the input
image that agrees with the input at every cell where the mask is false.
(The embedding is purely functional; the source's defensive `image.copy()`
at solver entry is what keeps the caller's array unmutated.) -/
theorem solvers_preserve_shape_and_unmasked (image : Grid) (m : Mask)
    (tol : ℚ) (max_iter : ℤ) (omega : ℚ)
    (hlen : image.data.length = image.rows * image.cols) :
    ((inpaint_jacobi image m tol max_iter omega).1.rows = image.rows ∧
     (inpaint_jacobi image m tol max_iter omega).1.cols = image.cols ∧
     (inpaint_jacobi image m tol max_iter omega).1.data.length = image.data.length ∧
     ∀ i j, i < image.rows → j < image.cols → m.get i j = false →
       (inpaint_jacobi image m tol max_iter omega).1.get i j = image.get i j) ∧
    ((inpaint_sor image m tol max_iter omega).1.rows = image.rows ∧
     (inpaint_sor image m tol max_iter omega).1.cols = image.cols ∧
     (inpaint_sor image m tol max_iter omega).1.data.length = image.data.length ∧
     ∀ i j, i < image.rows → j < image.cols → m.get i j = false →
       (inpaint_sor image m tol max_iter omega).1.get i j = image.get i j) := by
  have hP0 : framePres image m image := ⟨rfl, rfl, hlen, fun i j _ _ _ => rfl⟩
  have hJ := framePres_solveLoop image m (fun u => step_jacobi_2D u m omega) tol
    (fun g hg => framePres_step_jacobi image m omega hg) max_iter.toNat image 0 hP0
  have hS := framePres_solveLoop image m (fun u => step_sor_2D u m omega) tol
    (fun g hg => framePres_step_sor image m omega hg) max_iter.toNat image 0 hP0
  obtain ⟨hJr, hJc, hJl, hJg⟩ := hJ
  obtain ⟨hSr, hSc, hSl, hSg⟩ := hS
  rw [inpaint_jacobi_fst, inpaint_sor_fst]
  exact ⟨⟨hJr, hJc, by rw [hJl, hlen], hJg⟩, ⟨hSr, hSc, by rw [hSl, hlen], hSg⟩⟩

/-- Witness for `solvers_preserve_shape_and_unmasked` on the hot-corner
scenario. -/
theorem solvers_preserve_shape_and_unmasked_witness :
    (hotCornerGrid.data.length = hotCornerGrid.rows * hotCornerGrid.cols) ∧
    (((inpaint_jacobi hotCornerGrid hotCornerMask 1 4 1).1.rows = hotCornerGrid.rows ∧
      (inpaint_jacobi hotCornerGrid hotCornerMask 1 4 1).1.cols = hotCornerGrid.cols ∧
      (inpaint_jacobi hotCornerGrid hotCornerMask 1 4 1).1.data.length = hotCornerGrid.data.length ∧
      ∀ i j, i < hotCornerGrid.rows → j < hotCornerGrid.cols → hotCornerMask.get i j = false →
        (inpaint_jacobi hotCornerGrid hotCornerMask 1 4 1).1.get i j = hotCornerGrid.get i j) ∧
     ((inpaint_sor hotCornerGrid hotCornerMask 1 4 1).1.rows = hotCornerGrid.rows ∧
      (inpaint_sor hotCornerGrid hotCornerMask 1 4 1).1.cols = hotCornerGrid.cols ∧
      (inpaint_sor hotCornerGrid hotCornerMask 1 4 1).1.data.length = hotCornerGrid.data.length ∧
      ∀ i j, i < hotCornerGrid.rows → j < hotCornerGrid.cols → hotCornerMask.get i j = false →
        (inpaint_sor hotCornerGrid hotCornerMask 1 4 1).1.get i j = hotCornerGrid.get i j)) :=
  ⟨by simp [hotCornerGrid, Grid.ofFn],
   solvers_preserve_shape_and_unmasked hotCornerGrid hotCornerMask 1 4 1
     (by simp [hotCornerGrid, Grid.ofFn])⟩

/- ------------------------------------------------------------------ -/
/- Claim C4: the SOR sweep order and its boundary policy.             -/
/- ------------------------------------------------------------------ -/

/-- Modelled from the spec's words (§4.3): sequentially visit `steps`
cells of row `i` starting at column `j`, applying the SOR cell update to
the current, partially-updated grid. -/
def specRowSweep (m : Mask) (omega : ℚ) (i : Nat) : Nat → Nat → Grid → Grid
  | _, 0, g => g
  | j, steps + 1, g => specRowSweep m omega i (j + 1) steps (sorCell m omega g i j)

/-- Modelled from the spec's words (§4.3): sweep `steps` rows starting at
row `i`, each row visiting columns `1 .. cols2` in order. -/
def specSorSweep (m : Mask) (omega : ℚ) (cols2 : Nat) : Nat → Nat → Grid → Grid
  | _, 0, g => g
  | i, steps + 1, g => specSorSweep m omega cols2 (i + 1) steps (specRowSweep m omega i 1 cols2 g)

/-- The SOR sweep as the spec describes it: row-major order from `(1,1)`
to `(rows-2, cols-2)` inclusive, later cells seeing earlier updates. -/
def step_sor_2D_rowMajor (u : Grid) (m : Mask) (omega : ℚ) : Grid :=
  specSorSweep m omega (u.cols - 2) 1 (u.rows - 2) u

theorem foldl_sorCell_row (m : Mask) (omega : ℚ) (i : Nat) :
    ∀ (n s : Nat) (g : Grid),
      (List.range' s n).foldl (fun g2 j => sorCell m omega g2 i j) g =
        specRowSweep m omega i s n g := by
  intro n
  induction n with
  | zero => intro s g; rfl
  | succ n ih =>
    intro s g
    rw [List.range'_succ]
    simp only [List.foldl_cons]
    rw [ih]
    rfl

theorem foldl_sorCell_outer (m : Mask) (omega : ℚ) (cols2 : Nat) :
    ∀ (n s : Nat) (g : Grid),
      (List.range' s n).foldl
        (fun g2 i => (List.range' 1 cols2).foldl (fun g3 j => sorCell m omega g3 i j) g2) g =
        specSorSweep m omega cols2 s n g := by
  intro n
  induction n with
  | zero => intro s g; rfl
  | succ n ih =>
    intro s g
    rw [List.range'_succ]
    simp only [List.foldl_cons]
    rw [foldl_sorCell_row, ih]
    rfl

theorem sorCell_cols (m : Mask) (omega : ℚ) (g : Grid) (a b : Nat) :
    (sorCell m omega g a b).cols = g.cols := by
  unfold sorCell
  split
  · rfl
  · rfl

theorem sorCell_get_ne (m : Mask) (omega : ℚ) (g : Grid) {a b i j : Nat}
    (hj : j < g.cols) (hb : b < g.cols) (hne : ¬(i = a ∧ j = b)) :
    (sorCell m omega g a b).get i j = g.get i j := by
  unfold sorCell
  by_cases hm : m.get a b
  · rw [if_pos hm]
    exact Grid.get_set_ne g _ hj hb hne
  · rw [if_neg hm]

theorem borderPres_inner (m : Mask) (omega : ℚ) (u : Grid) (a : Nat)
    (ha1 : 1 ≤ a) (haR : a + 1 < u.rows) :
    ∀ (js : List Nat) (g : Grid),
      (∀ b ∈ js, 1 ≤ b ∧ b + 1 < u.cols) →
      g.cols = u.cols →
      (js.foldl (fun g2 j => sorCell m omega g2 a j) g).cols = u.cols ∧
      (∀ i j, i < u.rows → j < u.cols →
        (i = 0 ∨ i = u.rows - 1 ∨ j = 0 ∨ j = u.cols - 1) →
        (js.foldl (fun g2 j => sorCell m omega g2 a j) g).get i j = g.get i j) := by
  intro js
  induction js with
  | nil => intro g _ hgc; exact ⟨hgc, fun i j _ _ _ => rfl⟩
  | cons b js ih =>
    intro g hmem hgc
    have hb := hmem b (by simp)
    have hgc2 : (sorCell m omega g a b).cols = u.cols := by
      rw [sorCell_cols]; exact hgc
    have ihr := ih (sorCell m omega g a b) (fun x hx => hmem x (by simp [hx])) hgc2
    simp only [List.foldl_cons]
    refine ⟨ihr.1, ?_⟩
    intro i j hi hj hborder
    rw [ihr.2 i j hi hj hborder]
    refine sorCell_get_ne m omega g (by omega) (by omega) ?_
    rintro ⟨rfl, rfl⟩
    rcases hborder with h | h | h | h <;> omega

theorem borderPres_outer (m : Mask) (omega : ℚ) (u : Grid) :
    ∀ (is : List Nat) (g : Grid),
      (∀ a ∈ is, 1 ≤ a ∧ a + 1 < u.rows) →
      g.cols = u.cols →
      (is.foldl (fun g2 i =>
          (List.range' 1 (u.cols - 2)).foldl (fun g3 j => sorCell m omega g3 i j) g2) g).cols
        = u.cols ∧
      (∀ i j, i < u.rows → j < u.cols →
        (i = 0 ∨ i = u.rows - 1 ∨ j = 0 ∨ j = u.cols - 1) →
        (is.foldl (fun g2 i =>
          (List.range' 1 (u.cols - 2)).foldl (fun g3 j => sorCell m omega g3 i j) g2) g).get i j
          = g.get i j) := by
  intro is
  induction is with
  | nil => intro g _ hgc; exact ⟨hgc, fun i j _ _ _ => rfl⟩
  | cons a is ih =>
    intro g hmem hgc
    have ha := hmem a (by simp)
    have hcmem : ∀ b ∈ List.range' 1 (u.cols - 2), 1 ≤ b ∧ b + 1 < u.cols := by
      intro b hbmem
      rw [List.mem_range'] at hbmem
      obtain ⟨t, ht, rfl⟩ := hbmem
      omega
    have hrow := borderPres_inner m omega u a ha.1 ha.2
      (List.range' 1 (u.cols - 2)) g hcmem hgc
    have ihr := ih _ (fun x hx => hmem x (by simp [hx])) hrow.1
    simp only [List.foldl_cons]
    refine ⟨ihr.1, ?_⟩
    intro i j hi hj hborder
    rw [ihr.2 i j hi hj hborder, hrow.2 i j hi hj hborder]

/-- Claim C4: the SOR sweep equals the spec's row-major sequential sweep
from `(1,1)` to `(rows-2, cols-2)` (so later cells see earlier in-place
updates), and it never changes any cell of the outermost border,
regardless of the mask. -/
theorem step_sor_rowMajor_and_border (u : Grid) (m : Mask) (omega : ℚ) :
    step_sor_2D u m omega = step_sor_2D_rowMajor u m omega ∧
    ∀ i j, i < u.rows → j < u.cols →
      (i = 0 ∨ i = u.rows - 1 ∨ j = 0 ∨ j = u.cols - 1) →
      (step_sor_2D u m omega).get i j = u.get i j := by
  constructor
  · unfold step_sor_2D step_sor_2D_rowMajor
    exact foldl_sorCell_outer m omega (u.cols - 2) (u.rows - 2) 1 u
  · intro i j hi hj hborder
    have hrmem : ∀ a ∈ List.range' 1 (u.rows - 2), 1 ≤ a ∧ a + 1 < u.rows := by
      intro a hamem
      rw [List.mem_range'] at hamem
      obtain ⟨t, ht, rfl⟩ := hamem
      omega
    have h := borderPres_outer m omega u (List.range' 1 (u.rows - 2)) u hrmem rfl
    exact h.2 i j hi hj hborder

/- ------------------------------------------------------------------ -/
/- Claim C7: bounds-checked embedding of the numpy index semantics.   -/
/- ------------------------------------------------------------------ -/

/-- Checked `mask[i, j]`: numpy raises `IndexError` on an out-of-range
integer index. -/
def Mask.getE (m : Mask) (i j : Nat) : Except String Bool :=
  if i < m.rows ∧ j < m.cols then Except.ok (m.get i j)
  else Except.error "IndexError"

/-- Checked Jacobi step: the boolean-mask assignment `u_new[mask] = ...`
(line 33 of the source) raises `IndexError` when the mask's shape does not
match the grid's. -/
def step_jacobi_2DE (u : Grid) (m : Mask) (omega : ℚ) : Except String Grid :=
  if u.rows = m.rows ∧ u.cols = m.cols then Except.ok (step_jacobi_2D u m omega)
  else Except.error "IndexError"

/-- Checked SOR sweep: each visited cell reads `mask[i, j]` with integer
indices, which raises `IndexError` when out of the mask's range (the grid
reads themselves stay inside the interior loop bounds). -/
def step_sor_2DE (u : Grid) (m : Mask) (omega : ℚ) : Except String Grid :=
  (List.range' 1 (u.rows - 2)).foldlM
    (fun g i =>
      (List.range' 1 (u.cols - 2)).foldlM
        (fun g2 j => (m.getE i j).map (fun b =>
          if b then
            g2.set i j ((1 - omega) * g2.get i j +
              omega * ((g2.get (i + 1) j + g2.get (i - 1) j +
                        g2.get i (j + 1) + g2.get i (j - 1)) / 4))
          else g2))
        g)
    u

/-- Checked solver loop: the convergence diff `u_new[mask] - u[mask]` is a
boolean-mask read, which raises `IndexError` unless mask and grids share a
shape. -/
def solveLoopE (stepF : Grid → Except String Grid) (m : Mask) (tol : ℚ) :
    Grid → Nat → Nat → Except String (Grid × Option Nat)
  | u, _, 0 => Except.ok (u, none)
  | u, it, fuel + 1 =>
    match stepF u with
    | Except.error e => Except.error e
    | Except.ok uNew =>
      if uNew.rows = m.rows ∧ uNew.cols = m.cols ∧ u.rows = m.rows ∧ u.cols = m.cols then
        if normLtTol (diffMasked uNew u m) tol then Except.ok (uNew, some (it + 1))
        else solveLoopE stepF m tol uNew (it + 1) fuel
      else Except.error "IndexError"

/-- `inpaint_jacobi` under the bounds-checked index semantics. -/
def inpaint_jacobiE (image : Grid) (m : Mask) (tol : ℚ) (max_iter : ℤ)
    (omega : ℚ) : Except String (Grid × ℤ) :=
  match solveLoopE (fun u => step_jacobi_2DE u m omega) m tol image 0 max_iter.toNat with
  | Except.error e => Except.error e
  | Except.ok (u, some k) => Except.ok (u, (k : ℤ))
  | Except.ok (u, none) => Except.ok (u, max_iter)

/-- `inpaint_sor` under the bounds-checked index semantics. -/
def inpaint_sorE (image : Grid) (m : Mask) (tol : ℚ) (max_iter : ℤ)
    (omega : ℚ) : Except String (Grid × ℤ) :=
  match solveLoopE (fun u => step_sor_2DE u m omega) m tol image 0 max_iter.toNat with
  | Except.error e => Except.error e
  | Except.ok (u, some k) => Except.ok (u, (k : ℤ))
  | Except.ok (u, none) => Except.ok (u, max_iter)

/-- 5×5 grid of zeros (the claim's concrete shape-mismatch scenario). -/
def g55 : Grid := ⟨5, 5, List.replicate 25 0⟩

/-- 3×5 mask: shape differs from `g55`. -/
def m35 : Mask := ⟨3, 5, List.replicate 15 false⟩

/-- Counterexample to claim C7 as stated: there is no shape validation
before the loop — with the mismatched shapes and `max_iter = 0` both
solvers return successfully instead of rejecting the input. -/
theorem shape_mismatch_no_pre_check :
    inpaint_jacobiE g55 m35 1 0 1 = Except.ok (g55, 0) ∧
    inpaint_sorE g55 m35 1 0 1 = Except.ok (g55, 0) ∧
    g55.rows ≠ m35.rows := by
  refine ⟨rfl, rfl, by decide⟩

/-- Claim C7 (amended): the solvers do not validate shapes; with mask
shape `(3,5)` against grid shape `(5,5)` and `max_iter ≥ 1`, both abort
with an `IndexError` raised from indexing inside the first iteration, not
with a pre-loop `InvalidShape` rejection. -/
theorem shape_mismatch_errors_in_first_iteration (tol omega : ℚ)
    (max_iter : ℤ) (h : 1 ≤ max_iter) :
    inpaint_jacobiE g55 m35 tol max_iter omega = Except.error "IndexError" ∧
    inpaint_sorE g55 m35 tol max_iter omega = Except.error "IndexError" := by
  obtain ⟨k, hk⟩ : ∃ k, max_iter.toNat = k + 1 := ⟨max_iter.toNat - 1, by omega⟩
  constructor
  · have hstep : step_jacobi_2DE g55 m35 omega = Except.error "IndexError" := by
      unfold step_jacobi_2DE
      rw [if_neg]
      rintro ⟨h5, -⟩
      exact absurd h5 (by decide)
    have hloop : solveLoopE (fun u => step_jacobi_2DE u m35 omega) m35 tol g55 0 (k + 1) =
        Except.error "IndexError" := by
      have hun : solveLoopE (fun u => step_jacobi_2DE u m35 omega) m35 tol g55 0 (k + 1) =
          match step_jacobi_2DE g55 m35 omega with
          | Except.error e => Except.error e
          | Except.ok uNew =>
            if uNew.rows = m35.rows ∧ uNew.cols = m35.cols ∧
                g55.rows = m35.rows ∧ g55.cols = m35.cols then
              if normLtTol (diffMasked uNew g55 m35) tol then Except.ok (uNew, some 1)
              else solveLoopE (fun u => step_jacobi_2DE u m35 omega) m35 tol uNew 1 k
            else Except.error "IndexError" := rfl
      rw [hun, hstep]
    unfold inpaint_jacobiE
    rw [hk, hloop]
  · have hstep : step_sor_2DE g55 m35 omega = Except.error "IndexError" := rfl
    have hloop : solveLoopE (fun u => step_sor_2DE u m35 omega) m35 tol g55 0 (k + 1) =
        Except.error "IndexError" := by
      have hun : solveLoopE (fun u => step_sor_2DE u m35 omega) m35 tol g55 0 (k + 1) =
          match step_sor_2DE g55 m35 omega with
          | Except.error e => Except.error e
          | Except.ok uNew =>
            if uNew.rows = m35.rows ∧ uNew.cols = m35.cols ∧
                g55.rows = m35.rows ∧ g55.cols = m35.cols then
              if normLtTol (diffMasked uNew g55 m35) tol then Except.ok (uNew, some 1)
              else solveLoopE (fun u => step_sor_2DE u m35 omega) m35 tol uNew 1 k
            else Except.error "IndexError" := rfl
      rw [hun, hstep]
    unfold inpaint_sorE
    rw [hk, hloop]

/-- Witness for `shape_mismatch_errors_in_first_iteration`. -/
theorem shape_mismatch_errors_in_first_iteration_witness :
    ((1 : ℤ) ≤ 1000) ∧
    (inpaint_jacobiE g55 m35 1 1000 1 = Except.error "IndexError" ∧
     inpaint_sorE g55 m35 1 1000 1 = Except.error "IndexError") :=
  ⟨by decide, shape_mismatch_errors_in_first_iteration 1 1 1000 (by decide)⟩

/- ------------------------------------------------------------------ -/
/- The checked embedding agrees with the total one on matching shapes. -/
/- ------------------------------------------------------------------ -/

theorem Mask.getE_ok (m : Mask) {i j : Nat} (hi : i < m.rows) (hj : j < m.cols) :
    m.getE i j = Except.ok (m.get i j) := by
  unfold Mask.getE
  rw [if_pos ⟨hi, hj⟩]

theorem sorCell_rows (m : Mask) (omega : ℚ) (g : Grid) (a b : Nat) :
    (sorCell m omega g a b).rows = g.rows := by
  unfold sorCell
  split
  · rfl
  · rfl

theorem foldl_sorCell_inner_shape (m : Mask) (omega : ℚ) (a : Nat) :
    ∀ (js : List Nat) (g : Grid),
      (js.foldl (fun g2 j => sorCell m omega g2 a j) g).rows = g.rows ∧
      (js.foldl (fun g2 j => sorCell m omega g2 a j) g).cols = g.cols := by
  intro js
  induction js with
  | nil => intro g; exact ⟨rfl, rfl⟩
  | cons b js ih =>
    intro g
    simp only [List.foldl_cons]
    have h := ih (sorCell m omega g a b)
    rw [h.1, h.2, sorCell_rows, sorCell_cols]
    exact ⟨rfl, rfl⟩

theorem foldl_sorCell_outer_shape (m : Mask) (omega : ℚ) (cols2 : Nat) :
    ∀ (is : List Nat) (g : Grid),
      ((is.foldl (fun g2 i =>
          (List.range' 1 cols2).foldl (fun g3 j => sorCell m omega g3 i j) g2) g).rows
        = g.rows) ∧
      ((is.foldl (fun g2 i =>
          (List.range' 1 cols2).foldl (fun g3 j => sorCell m omega g3 i j) g2) g).cols
        = g.cols) := by
  intro is
  induction is with
  | nil => intro g; exact ⟨rfl, rfl⟩
  | cons a is ih =>
    intro g
    simp only [List.foldl_cons]
    have hrow := foldl_sorCell_inner_shape m omega a (List.range' 1 cols2) g
    have h := ih ((List.range' 1 cols2).foldl (fun g3 j => sorCell m omega g3 a j) g)
    rw [h.1, h.2, hrow.1, hrow.2]
    exact ⟨rfl, rfl⟩

theorem step_sor_2D_shape (u : Grid) (m : Mask) (omega : ℚ) :
    (step_sor_2D u m omega).rows = u.rows ∧ (step_sor_2D u m omega).cols = u.cols := by
  unfold step_sor_2D
  exact foldl_sorCell_outer_shape m omega (u.cols - 2) (List.range' 1 (u.rows - 2)) u

theorem foldlM_sorRow_ok (m : Mask) (omega : ℚ) (a : Nat) (ha : a < m.rows) :
    ∀ (js : List Nat) (g : Grid), (∀ b ∈ js, b < m.cols) →
      js.foldlM (fun g2 j => (m.getE a j).map (fun b =>
        if b then
          g2.set a j ((1 - omega) * g2.get a j +
            omega * ((g2.get (a + 1) j + g2.get (a - 1) j +
                      g2.get a (j + 1) + g2.get a (j - 1)) / 4))
        else g2)) g
        = Except.ok (js.foldl (fun g2 j => sorCell m omega g2 a j) g) := by
  intro js
  induction js with
  | nil => intro g _; rfl
  | cons b js ih =>
    intro g hmem
    rw [List.foldlM_cons, Mask.getE_ok m ha (hmem b (by simp))]
    exact ih (sorCell m omega g a b) (fun x hx => hmem x (by simp [hx]))

theorem foldlM_sorSweep_ok (m : Mask) (omega : ℚ) (js : List Nat)
    (hjs : ∀ b ∈ js, b < m.cols) :
    ∀ (is : List Nat), (∀ a ∈ is, a < m.rows) → ∀ (g : Grid),
      is.foldlM (fun g2 i => js.foldlM (fun g3 j => (m.getE i j).map (fun b =>
        if b then
          g3.set i j ((1 - omega) * g3.get i j +
            omega * ((g3.get (i + 1) j + g3.get (i - 1) j +
                      g3.get i (j + 1) + g3.get i (j - 1)) / 4))
        else g3)) g2) g
        = Except.ok (is.foldl (fun g2 i =>
            js.foldl (fun g3 j => sorCell m omega g3 i j) g2) g) := by
  intro is
  induction is with
  | nil => intro _ g; rfl
  | cons a is ih =>
    intro hmem g
    rw [List.foldlM_cons, foldlM_sorRow_ok m omega a (hmem a (by simp)) js g hjs]
    exact ih (fun x hx => hmem x (by simp [hx]))
      (js.foldl (fun g3 j => sorCell m omega g3 a j) g)

theorem step_sor_2DE_ok (u : Grid) (m : Mask) (omega : ℚ)
    (hr : u.rows = m.rows) (hc : u.cols = m.cols) :
    step_sor_2DE u m omega = Except.ok (step_sor_2D u m omega) := by
  have hrows : ∀ a ∈ List.range' 1 (u.rows - 2), a < m.rows := by
    intro a hamem
    rw [List.mem_range'] at hamem
    obtain ⟨t, ht, rfl⟩ := hamem
    omega
  have hcols : ∀ b ∈ List.range' 1 (u.cols - 2), b < m.cols := by
    intro b hbmem
    rw [List.mem_range'] at hbmem
    obtain ⟨t, ht, rfl⟩ := hbmem
    omega
  unfold step_sor_2DE step_sor_2D
  exact foldlM_sorSweep_ok m omega (List.range' 1 (u.cols - 2)) hcols
    (List.range' 1 (u.rows - 2)) hrows u

theorem solveLoopE_ok (stepF : Grid → Except String Grid) (stepT : Grid → Grid)
    (m : Mask) (tol : ℚ)
    (hshape : ∀ g : Grid, g.rows = m.rows → g.cols = m.cols →
      (stepT g).rows = m.rows ∧ (stepT g).cols = m.cols)
    (hstep : ∀ g : Grid, g.rows = m.rows → g.cols = m.cols →
      stepF g = Except.ok (stepT g)) :
    ∀ (fuel : Nat) (g : Grid) (it : Nat), g.rows = m.rows → g.cols = m.cols →
      solveLoopE stepF m tol g it fuel =
        Except.ok (solveLoop stepT m tol g it fuel) := by
  intro fuel
  induction fuel with
  | zero => intro g it _ _; rfl
  | succ fuel ih =>
    intro g it hr hc
    have hnew := hshape g hr hc
    have hunT : solveLoop stepT m tol g it (fuel + 1) =
        if normLtTol (diffMasked (stepT g) g m) tol then (stepT g, some (it + 1))
        else solveLoop stepT m tol (stepT g) (it + 1) fuel := rfl
    have hunE : solveLoopE stepF m tol g it (fuel + 1) =
        match stepF g with
        | Except.error e => Except.error e
        | Except.ok uNew =>
          if uNew.rows = m.rows ∧ uNew.cols = m.cols ∧ g.rows = m.rows ∧ g.cols = m.cols then
            if normLtTol (diffMasked uNew g m) tol then Except.ok (uNew, some (it + 1))
            else solveLoopE stepF m tol uNew (it + 1) fuel
          else Except.error "IndexError" := rfl
    have hred : solveLoopE stepF m tol g it (fuel + 1) =
        (if (stepT g).rows = m.rows ∧ (stepT g).cols = m.cols ∧
            g.rows = m.rows ∧ g.cols = m.cols then
          if normLtTol (diffMasked (stepT g) g m) tol then
            Except.ok (stepT g, some (it + 1))
          else solveLoopE stepF m tol (stepT g) (it + 1) fuel
        else Except.error "IndexError") := by
      rw [hunE, hstep g hr hc]
    rw [hred, if_pos ⟨hnew.1, hnew.2, hr, hc⟩, hunT]
    by_cases hcv : normLtTol (diffMasked (stepT g) g m) tol = true
    · rw [if_pos hcv, if_pos hcv]
    · rw [if_neg hcv, if_neg hcv]
      exact ih (stepT g) (it + 1) hnew.1 hnew.2

/-- On matching shapes, the bounds-checked Jacobi solver returns exactly
the total embedding's result: no `IndexError` is reachable. -/
theorem inpaint_jacobiE_ok (image : Grid) (m : Mask) (tol : ℚ) (max_iter : ℤ)
    (omega : ℚ) (hr : image.rows = m.rows) (hc : image.cols = m.cols) :
    inpaint_jacobiE image m tol max_iter omega =
      Except.ok (inpaint_jacobi image m tol max_iter omega) := by
  have h := solveLoopE_ok (fun u => step_jacobi_2DE u m omega)
    (fun u => step_jacobi_2D u m omega) m tol
    (fun g hgr hgc => ⟨hgr, hgc⟩)
    (fun g hgr hgc => if_pos ⟨hgr, hgc⟩)
    max_iter.toNat image 0 hr hc
  unfold inpaint_jacobiE inpaint_jacobi
  rw [h]
  rcases solveLoop (fun u => step_jacobi_2D u m omega) m tol image 0 max_iter.toNat
    with ⟨u, o⟩
  cases o <;> rfl

/-- On matching shapes, the bounds-checked SOR solver returns exactly the
total embedding's result: no `IndexError` is reachable. -/
theorem inpaint_sorE_ok (image : Grid) (m : Mask) (tol : ℚ) (max_iter : ℤ)
    (omega : ℚ) (hr : image.rows = m.rows) (hc : image.cols = m.cols) :
    inpaint_sorE image m tol max_iter omega =
      Except.ok (inpaint_sor image m tol max_iter omega) := by
  have h := solveLoopE_ok (fun u => step_sor_2DE u m omega)
    (fun u => step_sor_2D u m omega) m tol
    (fun g hgr hgc => by
      have hs := step_sor_2D_shape g m omega
      rw [hs.1, hs.2]
      exact ⟨hgr, hgc⟩)
    (fun g hgr hgc => step_sor_2DE_ok g m omega hgr hgc)
    max_iter.toNat image 0 hr hc
  unfold inpaint_sorE inpaint_sor
  rw [h]
  rcases solveLoop (fun u => step_sor_2D u m omega) m tol image 0 max_iter.toNat
    with ⟨u, o⟩
  cases o <;> rfl
